import Mathlib

/-!
Verification development for the `pathwalk` parallel directory walker.

The Go sources are embedded shallowly: Go strings become lists of runes
(`List Nat`), pure functions become Lean functions, the mutex-guarded
mutable state of a `Walk` becomes explicit state passing over a `Walk`
structure, Go panics become the `error` branch of `Except`, and the
filesystem and the user visitor callback become explicit oracles in an
`Env` structure.  A jobs-channel send becomes an append to an explicit
`jobsBuffer` list (with a send on a closed channel modelled as the panic
it is in Go).
-/

namespace Pathwalk

/-- Go strings are modelled as lists of runes (code points). -/
abbrev GoString := List Nat

/-- The rune of the path separator character used by the walker. -/
def sepRune : Nat := 47

/-- Models `strings.ToLower` on one rune, for the ASCII subset exercised by
this repository: ASCII uppercase letters are shifted into lowercase, all
other runes are returned unchanged.  (No Unicode lowercase mapping produces
an ASCII uppercase letter, so the property used in the proofs below — the
result is never an ASCII uppercase letter — agrees with the full function.) -/
def toLowerRune (c : Nat) : Nat :=
  if 65 ≤ c ∧ c ≤ 90 then c + 32 else c

/-- Models `strings.ToLower` on a whole string. -/
def toLowerStr (s : GoString) : GoString :=
  s.map toLowerRune

/-- Fuel-indexed core of `filepathMatch`.  Models `path/filepath.Match`
(the matcher applied to filename rules) on the pattern subset used by this
repository: `*` matches any possibly-empty run of non-separator runes, `?`
matches one non-separator rune, any other rune matches itself; the pattern
must consume the whole name.  (Character classes and backslash escapes are
outside the modelled subset.)  Each recursive call shrinks
`pattern.length + name.length`, so any fuel above that sum is enough. -/
def filepathMatchFuel : Nat → List Nat → List Nat → Bool
  | 0, _, _ => false
  | _ + 1, [], s => s.isEmpty
  | fuel + 1, p :: ps, s =>
    if p = 42 then
      match s with
      | [] => filepathMatchFuel fuel ps []
      | c :: cs =>
        filepathMatchFuel fuel ps (c :: cs) ||
          (decide (c ≠ sepRune) && filepathMatchFuel fuel (p :: ps) cs)
    else if p = 63 then
      match s with
      | [] => false
      | c :: cs => decide (c ≠ sepRune) && filepathMatchFuel fuel ps cs
    else
      match s with
      | [] => false
      | c :: cs => decide (p = c) && filepathMatchFuel fuel ps cs

/-- Models `path/filepath.Match pattern name` (see `filepathMatchFuel`). -/
def filepathMatch (pattern name : List Nat) : Bool :=
  filepathMatchFuel (pattern.length + name.length + 1) pattern name

/-- Fuel-indexed core of `globMatch`.  Models the matcher of a
`gobwas/glob` pattern compiled with separator `/` (the matcher applied to
path rules) on the pattern subset used by this repository: `**` matches any
possibly-empty run of runes including separators, `*` matches any
possibly-empty run of non-separator runes, `?` matches one non-separator
rune, any other rune matches itself; the pattern must consume the whole
path.  (Character classes, alternates and escapes are outside the modelled
subset.) -/
def globMatchFuel : Nat → List Nat → List Nat → Bool
  | 0, _, _ => false
  | _ + 1, [], s => s.isEmpty
  | fuel + 1, p :: ps, s =>
    if p = 42 then
      match ps with
      | 42 :: ps2 =>
        match s with
        | [] => globMatchFuel fuel ps2 []
        | c :: cs =>
          globMatchFuel fuel ps2 (c :: cs) || globMatchFuel fuel (p :: ps) cs
      | _ =>
        match s with
        | [] => globMatchFuel fuel ps []
        | c :: cs =>
          globMatchFuel fuel ps (c :: cs) ||
            (decide (c ≠ sepRune) && globMatchFuel fuel (p :: ps) cs)
    else if p = 63 then
      match s with
      | [] => false
      | c :: cs => decide (c ≠ sepRune) && globMatchFuel fuel ps cs
    else
      match s with
      | [] => false
      | c :: cs => decide (p = c) && globMatchFuel fuel ps cs

/-- Models matching a compiled `gobwas/glob` path pattern
(see `globMatchFuel`). -/
def globMatch (pattern path : List Nat) : Bool :=
  globMatchFuel (pattern.length + path.length + 1) pattern path

/-- `Filter` (filter.go): the user-facing filtering parameters. -/
structure Filter where
  IncludePaths : List GoString
  ExcludePaths : List GoString
  IncludeFilenames : List GoString
  ExcludeFilenames : List GoString
  IsCaseInsensitive : Bool
deriving DecidableEq

/-- `internalFilter` (filter.go): the conditioned copy of the user filtering
parameters.  Compiled glob patterns are modelled by the pattern strings
themselves, matched with `globMatch`. -/
structure internalFilter where
  includePaths : List GoString
  excludePaths : List GoString
  includeFilenames : List GoString
  excludeFilenames : List GoString
  isCaseInsensitive : Bool
deriving DecidableEq

/-- `internalFilter.IsFileIncluded` (filter.go lines 190-228): decides if the
given filename should be visited. -/
def internalFilter.IsFileIncluded (filter : internalFilter) (filename : GoString) : Bool :=
  let filename := if filter.isCaseInsensitive = true then toLowerStr filename else filename
  if 0 < filter.includeFilenames.length then
    -- If any included-files are declared, then any unmatched files will be
    -- skipped.
    filter.includeFilenames.any fun includePattern => filepathMatch includePattern filename
  else if 0 < filter.excludeFilenames.length then
    !(filter.excludeFilenames.any fun excludePattern => filepathMatch excludePattern filename)
  else
    -- No include filters or matching exclude filters. Include.
    true

/-- `internalFilter.IsPathIncluded` (filter.go lines 231-262): decides if the
given path should be visited. -/
def internalFilter.IsPathIncluded (filter : internalFilter) (currentPath : GoString) : Bool :=
  let currentPath := if filter.isCaseInsensitive = true then toLowerStr currentPath else currentPath
  if 0 < filter.includePaths.length then
    filter.includePaths.any fun includePattern => globMatch includePattern currentPath
  else if 0 < filter.excludePaths.length then
    !(filter.excludePaths.any fun excludePattern => globMatch excludePattern currentPath)
  else
    true

/-- Lexicographic (byte-order) strict comparison of Go strings, as used by
`sort.StringSlice`. -/
def lexLt : GoString → GoString → Bool
  | [], [] => false
  | [], _ :: _ => true
  | _ :: _, [] => false
  | a :: as, b :: bs => decide (a < b) || (decide (a = b) && lexLt as bs)

/-- Insert into an ascending-sorted list (helper for `sortStrings`). -/
def insertString (x : GoString) : List GoString → List GoString
  | [] => [x]
  | y :: ys => if lexLt x y then x :: y :: ys else y :: insertString x ys

/-- Ascending insertion sort over Go strings; models
`sort.StringSlice.Sort`. -/
def sortStrings : List GoString → List GoString
  | [] => []
  | x :: xs => insertString x (sortStrings xs)

/-- Descending sort; models `sort.Sort(sort.Reverse(...))` over strings. -/
def sortStringsDesc (l : List GoString) : List GoString :=
  (sortStrings l).reverse

/-- `newInternalFilter` (filter.go lines 265-308): conditions a `Filter` into
an `internalFilter`.  Path patterns are reverse-sorted and compiled (here:
retained for `globMatch`), filename patterns are sorted ascending; the
case-insensitivity flag is copied through and patterns are otherwise kept
exactly as configured. -/
def newInternalFilter (filter : Filter) : internalFilter :=
  { includePaths := sortStringsDesc filter.IncludePaths
    excludePaths := sortStringsDesc filter.ExcludePaths
    includeFilenames := sortStrings filter.IncludeFilenames
    excludeFilenames := sortStrings filter.ExcludeFilenames
    isCaseInsensitive := filter.IsCaseInsensitive }

/-- The slice of `os.FileInfo` observed by the walker: the entry name and the
directory flag. -/
structure FileInfo where
  name : GoString
  isDir : Bool
deriving DecidableEq

/-- `Job` (job.go): the tagged variants queued on the jobs channel.
`jobDirectoryNode` and `jobFileNode` carry their parent node path and stat
metadata; `jobDirectoryContentsBatch` carries the parent full path, the batch
number, the child names of the batch, and the `doProcessFiles` verdict. -/
inductive Job where
  | directoryNode (parentNodePath : GoString) (info : FileInfo)
  | fileNode (parentNodePath : GoString) (info : FileInfo)
  | directoryContentsBatch (parentPath : GoString) (batchNumber : Int)
      (childBatch : List GoString) (doProcessFiles : Bool)
deriving DecidableEq

/-- `Stats` (stats.go): the counters collected by the walking process.
`IdleWorkerTime` is a duration updated only inside the unmodelled worker
select loop; it is carried for structural fidelity and never changed here. -/
structure Stats where
  JobsDispatchedToNewWorker : Int
  JobsDispatchedToIdleWorker : Int
  FilesVisited : Int
  DirectoriesVisited : Int
  EntryBatchesProcessed : Int
  IdleWorkerTime : Int
  DirectoriesIgnored : Int
  PathFilterIncludes : Int
  PathFilterExcludes : Int
  FileFilterIncludes : Int
  FileFilterExcludes : Int
deriving DecidableEq

/-- The zero value `Stats{}`. -/
def emptyStats : Stats :=
  { JobsDispatchedToNewWorker := 0
    JobsDispatchedToIdleWorker := 0
    FilesVisited := 0
    DirectoriesVisited := 0
    EntryBatchesProcessed := 0
    IdleWorkerTime := 0
    DirectoriesIgnored := 0
    PathFilterIncludes := 0
    PathFilterExcludes := 0
    FileFilterIncludes := 0
    FileFilterExcludes := 0 }

/-- `Walk` (walk.go): the engine state of one walk instance.  Mutex-guarded
mutable fields become plain fields threaded through state-passing functions.
The jobs channel is modelled by `jobsCapacity` (its capacity as created by
`InitSync`), `jobsClosed` (whether `close` has been called) and `jobsBuffer`
(the jobs sent so far, a send appending on the right).  The error channel,
wait group and ticker infrastructure of the worker loop are concurrency
plumbing outside this sequential model. -/
structure Walk where
  rootPath : GoString
  concurrency : Int
  bufferSize : Int
  batchSize : Int
  jobsCapacity : Int
  jobsClosed : Bool
  jobsBuffer : List Job
  workerCount : Int
  idleWorkerCount : Int
  jobsInFlight : Int
  stats : Stats
  hasFinished : Bool
  hasStopped : Bool
  filter : internalFilter
  doLogFilterStats : Bool
deriving DecidableEq

/-- Go panics that the modelled code can raise (each `Except.error` branch
corresponds to a `panic`/`log.Panic` in the source). -/
inductive GoPanic where
  | unbalancedJobCounter
  | closeOfClosedChannel
  | sendOnClosedChannel
  | openDirFailed
  | visitorError (msg : GoString)
  | visitorSkipOnFile
deriving DecidableEq

/-- Result of the user visitor callback: `none` models a nil error, the two
other cases model returning the exported `ErrSkipDirectory` sentinel or some
other non-nil error. -/
inductive VisitorResult where
  | ok
  | skipDirectory
  | otherError (msg : GoString)
deriving DecidableEq

/-- The environment of a run: the filesystem oracles (`os.Stat` and
`os.Open` + `Readdirnames`, with `none` modelling a failure) and the user
visitor `walkFunc`. -/
structure Env where
  stat : GoString → Option FileInfo
  openDir : GoString → Option (List GoString)
  walkFunc : GoString → FileInfo → VisitorResult

/-- `defaultConcurrency` (walk.go line 181). -/
def defaultConcurrency : Int := 200

/-- `defaultBufferSize` (walk.go line 184). -/
def defaultBufferSize : Int := 1000

/-- `defaultDirectoryEntryBatchSize` (walk.go line 188). -/
def defaultDirectoryEntryBatchSize : Int := 100

/-- `Walk.SetFilter` (walk.go lines 275-284): installs the conditioned filter
and decides whether filter statistics are collected (only when at least one
rule is configured). -/
def SetFilter (walk : Walk) (filter : Filter) : Walk :=
  let f := newInternalFilter filter
  { walk with
    filter := f
    doLogFilterStats :=
      decide (0 < f.includePaths.length) || decide (0 < f.excludePaths.length) ||
        decide (0 < f.includeFilenames.length) || decide (0 < f.excludeFilenames.length) }

/-- `NewWalk` (walk.go lines 252-270): a fresh `Walk` with the default
configuration and an empty filter.  (The visitor callback lives in `Env` in
this model; remaining fields take their Go zero values.) -/
def NewWalk (rootPath : GoString) : Walk :=
  SetFilter
    { rootPath := rootPath
      concurrency := defaultConcurrency
      bufferSize := defaultBufferSize
      batchSize := defaultDirectoryEntryBatchSize
      jobsCapacity := 0
      jobsClosed := false
      jobsBuffer := []
      workerCount := 0
      idleWorkerCount := 0
      jobsInFlight := 0
      stats := emptyStats
      hasFinished := false
      hasStopped := false
      filter :=
        { includePaths := []
          excludePaths := []
          includeFilenames := []
          excludeFilenames := []
          isCaseInsensitive := false }
      doLogFilterStats := false }
    { IncludePaths := []
      ExcludePaths := []
      IncludeFilenames := []
      ExcludeFilenames := []
      IsCaseInsensitive := false }

/-- `Walk.InitSync` (walk.go lines 330-346): sets up the synchronization
state: a fresh jobs channel with capacity `concurrency`, a zeroed in-flight
counter, zeroed stats and cleared terminal flags. -/
def InitSync (walk : Walk) : Walk :=
  { walk with
    jobsCapacity := walk.concurrency
    jobsClosed := false
    jobsBuffer := []
    jobsInFlight := 0
    stats := emptyStats
    hasFinished := false
    hasStopped := false }

/-- `Walk.Stop` (walk.go lines 299-304): closes the jobs channel; it
intentionally does not set `hasFinished` (and, in the code as written, does
not touch `hasStopped` either).  Closing an already-closed channel is the Go
panic it would be. -/
def Stop (walk : Walk) : Except GoPanic Walk :=
  if walk.jobsClosed = true then .error .closeOfClosedChannel
  else .ok { walk with jobsClosed := true }

/-- `Walk.jobTickUp` (walk.go lines 600-605): increments the in-flight job
counter under the counter lock. -/
def jobTickUp (walk : Walk) : Walk :=
  { walk with jobsInFlight := walk.jobsInFlight + 1 }

/-- `Walk.jobTickDown` (walk.go lines 607-623): decrements the in-flight job
counter under the counter lock; panics if the counter goes negative; when
the counter reaches zero, closes the jobs channel and sets `hasStopped` and
`hasFinished`. -/
def jobTickDown (walk : Walk) : Except GoPanic Walk :=
  let walk := { walk with jobsInFlight := walk.jobsInFlight - 1 }
  if walk.jobsInFlight < 0 then .error .unbalancedJobCounter
  else if walk.jobsInFlight ≤ 0 then
    if walk.jobsClosed = true then .error .closeOfClosedChannel
    else .ok { walk with jobsClosed := true, hasStopped := true, hasFinished := true }
  else .ok walk

/-- `Walk.pushJob` (walk.go lines 432-465): if no worker is idle and we are
under capacity, start a new worker (the spawned goroutine itself is outside
the sequential model), else count a dispatch to an idle worker; then tick
the in-flight counter up and send the job on the channel. -/
def pushJob (walk : Walk) (job : Job) : Except GoPanic Walk :=
  let canStart := walk.idleWorkerCount ≤ 0 ∧ walk.workerCount < walk.concurrency
  let walk :=
    if canStart then { walk with workerCount := walk.workerCount + 1 }
    else
      { walk with stats :=
          { walk.stats with
            JobsDispatchedToIdleWorker := walk.stats.JobsDispatchedToIdleWorker + 1 } }
  let walk := jobTickUp walk
  if walk.jobsClosed = true then .error .sendOnClosedChannel
  else .ok { walk with jobsBuffer := walk.jobsBuffer ++ [job] }

/-- `Walk.statsPathFilterIncludeTickUp` (walk.go lines 673-682). -/
def statsPathFilterIncludeTickUp (walk : Walk) : Walk :=
  if walk.doLogFilterStats = false then walk
  else
    { walk with stats :=
        { walk.stats with PathFilterIncludes := walk.stats.PathFilterIncludes + 1 } }

/-- `Walk.statsPathFilterExcludeTickUp` (walk.go lines 684-693). -/
def statsPathFilterExcludeTickUp (walk : Walk) : Walk :=
  if walk.doLogFilterStats = false then walk
  else
    { walk with stats :=
        { walk.stats with PathFilterExcludes := walk.stats.PathFilterExcludes + 1 } }

/-- `Walk.statsFileFilterIncludeTickUp` (walk.go lines 695-704). -/
def statsFileFilterIncludeTickUp (walk : Walk) : Walk :=
  if walk.doLogFilterStats = false then walk
  else
    { walk with stats :=
        { walk.stats with FileFilterIncludes := walk.stats.FileFilterIncludes + 1 } }

/-- `Walk.statsFileFilterExcludeTickUp` (walk.go lines 706-715). -/
def statsFileFilterExcludeTickUp (walk : Walk) : Walk :=
  if walk.doLogFilterStats = false then walk
  else
    { walk with stats :=
        { walk.stats with FileFilterExcludes := walk.stats.FileFilterExcludes + 1 } }

/-- Models `path.Join(parent, child)` as used by the walker: an empty parent
yields the child, otherwise the two are joined with a `/` separator.
(`path.Clean` normalization is omitted; the walker only feeds the result
back to the filesystem oracles.) -/
def pathJoin (parent child : GoString) : GoString :=
  if parent.isEmpty then child else parent ++ sepRune :: child

/-- Fuel-indexed core of `chunkList` (the fuel is the list length, so it
never runs out). -/
def chunkListAux {α : Type} (n : Nat) : Nat → List α → List (List α)
  | 0, _ => []
  | _ + 1, [] => []
  | fuel + 1, xs => if n = 0 then [] else xs.take n :: chunkListAux n fuel (xs.drop n)

/-- Splits a directory listing into successive batches of `n` names: models
the `Readdirnames(batchSize)` loop of the directory-node handler. -/
def chunkList {α : Type} (n : Nat) (xs : List α) : List (List α) :=
  chunkListAux n xs.length xs

/-- The loop body of `handleJobDirectoryContentsBatch` (walk.go lines
636-668), recursing over the children of the batch.  A failed stat logs a
warning and executes `return nil`: the handler returns successfully but the
remaining children of the batch are not processed.  A directory child is
always pushed as a directory-node job; a file child is pushed as a file-node
job only when `doProcessFiles` is set and the file filter admits its name,
with the file-filter counters ticked accordingly. -/
def processBatchChildren (env : Env) (parentNodePath : GoString) (doProcessFiles : Bool) :
    Walk → List GoString → Except GoPanic Walk
  | walk, [] => .ok walk
  | walk, childFilename :: rest =>
    match env.stat (pathJoin parentNodePath childFilename) with
    | none => .ok walk
    | some info =>
      if info.isDir = true then
        match pushJob walk (.directoryNode parentNodePath info) with
        | .error e => .error e
        | .ok walk1 => processBatchChildren env parentNodePath doProcessFiles walk1 rest
      else if doProcessFiles = true then
        if walk.filter.IsFileIncluded childFilename ≠ true then
          processBatchChildren env parentNodePath doProcessFiles
            (statsFileFilterExcludeTickUp walk) rest
        else
          match pushJob (statsFileFilterIncludeTickUp walk) (.fileNode parentNodePath info) with
          | .error e => .error e
          | .ok walk1 => processBatchChildren env parentNodePath doProcessFiles walk1 rest
      else processBatchChildren env parentNodePath doProcessFiles walk rest

/-- `Walk.handleJobDirectoryContentsBatch` (walk.go lines 627-671). -/
def handleJobDirectoryContentsBatch (env : Env) (walk : Walk) (parentPath : GoString)
    (childBatch : List GoString) (doProcessFiles : Bool) : Except GoPanic Walk :=
  processBatchChildren env parentPath doProcessFiles walk childBatch

/-- The `Readdirnames` push loop of `handleJobDirectoryNode` (walk.go lines
785-802): pushes one directory-contents-batch job per batch, numbering them
from zero, and returns the final batch count. -/
def pushContentsBatches (fqPath : GoString) (isIncluded : Bool) :
    Walk → Int → List (List GoString) → Except GoPanic (Walk × Int)
  | walk, batchNumber, [] => .ok (walk, batchNumber)
  | walk, batchNumber, names :: rest =>
    match pushJob walk (.directoryContentsBatch fqPath batchNumber names isIncluded) with
    | .error e => .error e
    | .ok walk1 => pushContentsBatches fqPath isIncluded walk1 (batchNumber + 1) rest

/-- `Walk.handleJobDirectoryNode` (walk.go lines 719-809): counts the visit,
computes the relative path against the root and applies the path filter
(directories are descended even when excluded, but remember the verdict),
invokes the visitor when included — the `ErrSkipDirectory` sentinel counts
the directory as ignored and returns without reading children, any other
visitor error panics — then reads the directory and pushes its children in
batches carrying `doProcessFiles = isIncluded`. -/
def handleJobDirectoryNode (env : Env) (walk : Walk) (parentNodePath : GoString)
    (info : FileInfo) : Except GoPanic Walk :=
  let walk :=
    { walk with stats :=
        { walk.stats with DirectoriesVisited := walk.stats.DirectoriesVisited + 1 } }
  let fqPath := pathJoin parentNodePath info.name
  let rootPathPrefixLen : Nat := walk.rootPath.length + 1
  let verdict : Walk × Bool :=
    if rootPathPrefixLen < fqPath.length then
      let relPath := fqPath.drop rootPathPrefixLen
      if walk.filter.IsPathIncluded relPath ≠ true then
        (statsPathFilterExcludeTickUp walk, false)
      else (statsPathFilterIncludeTickUp walk, true)
    else (walk, true)
  let walk := verdict.1
  let isIncluded := verdict.2
  let descend : Walk → Except GoPanic Walk := fun walk =>
    match env.openDir fqPath with
    | none => .error .openDirFailed
    | some names =>
      match pushContentsBatches fqPath isIncluded walk 0
          (chunkList walk.batchSize.toNat names) with
      | .error e => .error e
      | .ok (walk1, batchNumber) =>
        .ok
          { walk1 with stats :=
              { walk1.stats with EntryBatchesProcessed :=
                  walk1.stats.EntryBatchesProcessed + batchNumber } }
  if isIncluded = true then
    match env.walkFunc parentNodePath info with
    | .skipDirectory =>
      .ok
        { walk with stats :=
            { walk.stats with DirectoriesIgnored := walk.stats.DirectoriesIgnored + 1 } }
    | .otherError e => .error (.visitorError e)
    | .ok => descend walk
  else descend walk

/-- `Walk.handleJobFileNode` (walk.go lines 812-830): counts the visit and
invokes the visitor; any non-nil visitor error (the skip sentinel included)
panics. -/
def handleJobFileNode (env : Env) (walk : Walk) (parentNodePath : GoString)
    (info : FileInfo) : Except GoPanic Walk :=
  let walk :=
    { walk with stats := { walk.stats with FilesVisited := walk.stats.FilesVisited + 1 } }
  match env.walkFunc parentNodePath info with
  | .ok => .ok walk
  | .skipDirectory => .error .visitorSkipOnFile
  | .otherError e => .error (.visitorError e)

/-- The type dispatch of `Walk.handleJob` (walk.go lines 577-593). -/
def jobHandler (env : Env) (walk : Walk) : Job → Except GoPanic Walk
  | .directoryContentsBatch parentPath _ childBatch doProcessFiles =>
    handleJobDirectoryContentsBatch env walk parentPath childBatch doProcessFiles
  | .directoryNode parentNodePath info => handleJobDirectoryNode env walk parentNodePath info
  | .fileNode parentNodePath info => handleJobFileNode env walk parentNodePath info

/-- `Walk.handleJob` (walk.go lines 570-598): dispatches on the job type and,
after the type-specific handler returns successfully, ticks the in-flight
counter down. -/
def handleJob (env : Env) (walk : Walk) (job : Job) : Except GoPanic Walk :=
  match jobHandler env walk job with
  | .error e => .error e
  | .ok walk1 => jobTickDown walk1

/-- One event of the in-flight counter: a push (the increment made by
`pushJob` before its channel send) or a handler completion (the decrement
made by `jobTickDown` after a handler ran). -/
inductive CounterEvent where
  | push
  | complete
deriving DecidableEq

/-- The arithmetic a counter event performs on `jobsInFlight`: `+1` as in
`jobTickUp`, `-1` as in `jobTickDown`. -/
def counterStep (n : Int) : CounterEvent → Int
  | .push => n + 1
  | .complete => n - 1

/-- The value of `jobsInFlight` after a trace of counter events, starting
from the zero set by `InitSync`. -/
def inFlightAfter (trace : List CounterEvent) : Int :=
  trace.foldl counterStep 0

/-- Number of push events in a trace. -/
def pushCount : List CounterEvent → Nat
  | [] => 0
  | .push :: rest => pushCount rest + 1
  | .complete :: rest => pushCount rest

/-- Number of completion events in a trace. -/
def completeCount : List CounterEvent → Nat
  | [] => 0
  | .push :: rest => completeCount rest
  | .complete :: rest => completeCount rest + 1

/-- The channel pairing discipline of a run: a handler can only complete a
job that was previously pushed, so along every prefix of the trace the
completions never outnumber the pushes. -/
def wellPaired (trace : List CounterEvent) : Bool :=
  trace.inits.all fun p => decide (completeCount p ≤ pushCount p)

/-- A rune that is special to neither modelled pattern language (`*`, `?`,
and the character-class / alternate / escape runes `[`, `]`, `{`, `}`,
`\`). -/
def isLiteralRune (c : Nat) : Bool :=
  !(c = 42 || c = 63 || c = 91 || c = 92 || c = 93 || c = 123 || c = 125)

/-- A pattern consisting of literal characters only. -/
def isLiteralPattern (p : GoString) : Bool :=
  p.all isLiteralRune

/-- Whether a string contains an ASCII uppercase letter. -/
def containsUpper (p : GoString) : Bool :=
  p.any fun c => decide (65 ≤ c) && decide (c ≤ 90)

/-- Specification-side characterization of the jobs a directory-contents
batch produces (compared against `handleJobDirectoryContentsBatch` in the
theorems below): a directory child always yields a directory-node job; a
file child yields a file-node job exactly when `doProcessFiles` is set and
the file filter admits its name. -/
def expectedBatchJobs (env : Env) (filter : internalFilter) (parentNodePath : GoString)
    (doProcessFiles : Bool) (children : List GoString) : List Job :=
  children.filterMap fun c =>
    match env.stat (pathJoin parentNodePath c) with
    | none => none
    | some info =>
      if info.isDir = true then some (.directoryNode parentNodePath info)
      else if doProcessFiles = true ∧ filter.IsFileIncluded c = true then
        some (.fileNode parentNodePath info)
      else none

/-- Number of file children of a batch admitted by the file filter. -/
def acceptedFileCount (env : Env) (filter : internalFilter) (parentNodePath : GoString)
    (children : List GoString) : Nat :=
  children.countP fun c =>
    match env.stat (pathJoin parentNodePath c) with
    | none => false
    | some info => !info.isDir && filter.IsFileIncluded c

/-- Number of file children of a batch rejected by the file filter. -/
def rejectedFileCount (env : Env) (filter : internalFilter) (parentNodePath : GoString)
    (children : List GoString) : Nat :=
  children.countP fun c =>
    match env.stat (pathJoin parentNodePath c) with
    | none => false
    | some info => !info.isDir && !filter.IsFileIncluded c

/-- A sample root path (`"r"`). -/
def sampleRoot : GoString := [114]

/-- A freshly initialized walk over `sampleRoot` with the default
configuration and no filter rules. -/
def walkFresh : Walk := InitSync (NewWalk sampleRoot)

/-- `walkFresh` with the file-filter statistics enabled and a file filter
that admits names not starting with an uppercase `Z`. -/
def walkFiltered : Walk :=
  SetFilter walkFresh
    { IncludePaths := []
      ExcludePaths := []
      IncludeFilenames := []
      ExcludeFilenames := [[90, 42]]
      IsCaseInsensitive := false }

/-- A parent path for batch fixtures (`"p"`). -/
def parentFixture : GoString := [112]

/-- Child name whose stat fails in `envBatch` (`"b"`). -/
def childBad : GoString := [98]

/-- Child name statting as a directory in `envBatch` (`"c"`). -/
def childDir : GoString := [99]

/-- Child name statting as a file in `envBatch` (`"f"`). -/
def childFile : GoString := [102]

/-- Child name statting as a file whose name the `walkFiltered` file filter
rejects (`"Zf"`). -/
def childFileExcluded : GoString := [90, 102]

/-- Batch-fixture environment: `stat` fails on `childBad`, reports a
directory for `childDir` and files for `childFile` and `childFileExcluded`;
the directory read always fails; the visitor always succeeds. -/
def envBatch : Env :=
  { stat := fun path =>
      if path = pathJoin parentFixture childBad then none
      else if path = pathJoin parentFixture childDir then some { name := childDir, isDir := true }
      else if path = pathJoin parentFixture childFile then
        some { name := childFile, isDir := false }
      else if path = pathJoin parentFixture childFileExcluded then
        some { name := childFileExcluded, isDir := false }
      else none
    openDir := fun _ => none
    walkFunc := fun _ _ => .ok }

/-- Directory-node fixture environment: the visitor returns the
skip-directory sentinel and the directory read fails (so a successful
handler return proves the directory was never opened). -/
def envSkip : Env :=
  { stat := fun _ => none
    openDir := fun _ => none
    walkFunc := fun _ _ => .skipDirectory }

/-- Directory-node fixture environment whose visitor fails with a non-
sentinel error (`"x"`). -/
def envVisitorFails : Env :=
  { stat := fun _ => none
    openDir := fun _ => none
    walkFunc := fun _ _ => .otherError [120] }

/-- File-node fixture environment: stat always succeeds with a file and the
visitor always succeeds. -/
def envFileOk : Env :=
  { stat := fun path => some { name := path, isDir := false }
    openDir := fun _ => some []
    walkFunc := fun _ _ => .ok }

/-- A directory `FileInfo` fixture named `"d"`. -/
def infoDir : FileInfo := { name := [100], isDir := true }

/-- A file `FileInfo` fixture named `"f"`. -/
def infoFile : FileInfo := { name := [102], isDir := false }

/-- `walkFresh` after the file-node handler ran on one file job. -/
def walkFileVisited : Walk :=
  { walkFresh with stats :=
      { walkFresh.stats with FilesVisited := walkFresh.stats.FilesVisited + 1 } }

/-- `walkFresh` after `pushJob` of one directory-node job. -/
def walkPushed : Walk :=
  (pushJob walkFresh (Job.directoryNode parentFixture infoDir)).toOption.getD walkFresh

/-- `walkFresh` with two jobs accounted in flight (a mid-run state). -/
def walkRunning : Walk := { walkFresh with jobsInFlight := 2 }

/-- `walkFresh` after `pushJob` of the directory-node job for `childDir`. -/
def walkPushedChildDir : Walk :=
  (pushJob walkFresh
      (Job.directoryNode parentFixture { name := childDir, isDir := true })).toOption.getD
    walkFresh

/-- The children of the batch fixture used for the dispatch witness. -/
def childrenFix : List GoString := [childDir, childFile, childFileExcluded]

/-- The batch job of the dispatch witness. -/
def batchJobFix : Job := .directoryContentsBatch parentFixture 0 childrenFix true

/-- The walk produced by handling `batchJobFix` from `walkFiltered`. -/
def walkBatchResult : Walk :=
  (jobHandler envBatch walkFiltered batchJobFix).toOption.getD walkFresh

theorem toLowerRune_not_upper (c : Nat) : ¬(65 ≤ toLowerRune c ∧ toLowerRune c ≤ 90) := by
  unfold toLowerRune
  split <;> omega

theorem toLowerStr_no_upper {s : GoString} {c : Nat} (h : c ∈ toLowerStr s) :
    ¬(65 ≤ c ∧ c ≤ 90) := by
  obtain ⟨d, _, rfl⟩ := List.mem_map.mp h
  exact toLowerRune_not_upper d

theorem literalRune_facts {c : Nat} (h : isLiteralRune c = true) : c ≠ 42 ∧ c ≠ 63 := by
  simp [isLiteralRune] at h
  omega

theorem filepathMatchFuel_literal : ∀ (fuel : Nat) (p s : List Nat),
    isLiteralPattern p = true → p.length + s.length < fuel →
    (filepathMatchFuel fuel p s = true ↔ p = s) := by
  intro fuel
  induction fuel with
  | zero => intro p s _ h; omega
  | succ n ih =>
    intro p s hlit hlen
    cases p with
    | nil => cases s <;> simp [filepathMatchFuel]
    | cons c ps =>
      have hall : isLiteralRune c = true ∧ isLiteralPattern ps = true := by
        simpa [isLiteralPattern, List.all_cons, isLiteralPattern] using hlit
      obtain ⟨hc42, hc63⟩ := literalRune_facts hall.1
      cases s with
      | nil => simp [filepathMatchFuel, hc42, hc63]
      | cons d ds =>
        have hrec : filepathMatchFuel n ps ds = true ↔ ps = ds := by
          apply ih ps ds hall.2
          simp only [List.length_cons] at hlen
          omega
        simp [filepathMatchFuel, hc42, hc63, hrec]

theorem globMatchFuel_literal : ∀ (fuel : Nat) (p s : List Nat),
    isLiteralPattern p = true → p.length + s.length < fuel →
    (globMatchFuel fuel p s = true ↔ p = s) := by
  intro fuel
  induction fuel with
  | zero => intro p s _ h; omega
  | succ n ih =>
    intro p s hlit hlen
    cases p with
    | nil => cases s <;> simp [globMatchFuel]
    | cons c ps =>
      have hall : isLiteralRune c = true ∧ isLiteralPattern ps = true := by
        simpa [isLiteralPattern, List.all_cons, isLiteralPattern] using hlit
      obtain ⟨hc42, hc63⟩ := literalRune_facts hall.1
      cases s with
      | nil => simp [globMatchFuel, hc42, hc63]
      | cons d ds =>
        have hrec : globMatchFuel n ps ds = true ↔ ps = ds := by
          apply ih ps ds hall.2
          simp only [List.length_cons] at hlen
          omega
        simp [globMatchFuel, hc42, hc63, hrec]

theorem filepathMatch_literal (p s : GoString) (h : isLiteralPattern p = true) :
    (filepathMatch p s = true ↔ p = s) :=
  filepathMatchFuel_literal _ p s h (by omega)

theorem globMatch_literal (p s : GoString) (h : isLiteralPattern p = true) :
    (globMatch p s = true ↔ p = s) :=
  globMatchFuel_literal _ p s h (by omega)

theorem filepathMatch_lower_false {p : GoString} (h1 : isLiteralPattern p = true)
    (h2 : containsUpper p = true) (s : GoString) :
    filepathMatch p (toLowerStr s) = false := by
  cases hb : filepathMatch p (toLowerStr s) with
  | false => rfl
  | true =>
    exfalso
    have hps := (filepathMatch_literal p _ h1).mp hb
    simp only [containsUpper, List.any_eq_true, Bool.and_eq_true, decide_eq_true_eq] at h2
    obtain ⟨c, hc, hupper⟩ := h2
    exact toLowerStr_no_upper (hps ▸ hc) hupper

theorem globMatch_lower_false {p : GoString} (h1 : isLiteralPattern p = true)
    (h2 : containsUpper p = true) (s : GoString) :
    globMatch p (toLowerStr s) = false := by
  cases hb : globMatch p (toLowerStr s) with
  | false => rfl
  | true =>
    exfalso
    have hps := (globMatch_literal p _ h1).mp hb
    simp only [containsUpper, List.any_eq_true, Bool.and_eq_true, decide_eq_true_eq] at h2
    obtain ⟨c, hc, hupper⟩ := h2
    exact toLowerStr_no_upper (hps ▸ hc) hupper

/-- C3: For every filter configuration and every candidate (a filename for
`IsFileIncluded`, a relative path for `IsPathIncluded`), if the candidate
matches at least one include pattern then the candidate is accepted, no
matter what the exclude lists contain (in particular even when one or more
exclude patterns also match). -/
theorem claim_C3 (f : internalFilter) (name currentPath : GoString) :
    ((∃ p ∈ f.includeFilenames,
        filepathMatch p (if f.isCaseInsensitive = true then toLowerStr name else name) = true) →
      f.IsFileIncluded name = true) ∧
    ((∃ p ∈ f.includePaths,
        globMatch p
          (if f.isCaseInsensitive = true then toLowerStr currentPath else currentPath) = true) →
      f.IsPathIncluded currentPath = true) := by
  constructor
  · rintro ⟨p, hp, hmatch⟩
    have hlen : 0 < f.includeFilenames.length := List.length_pos.mpr (List.ne_nil_of_mem hp)
    simp only [internalFilter.IsFileIncluded, if_pos hlen]
    exact List.any_eq_true.mpr ⟨p, hp, hmatch⟩
  · rintro ⟨p, hp, hmatch⟩
    have hlen : 0 < f.includePaths.length := List.length_pos.mpr (List.ne_nil_of_mem hp)
    simp only [internalFilter.IsPathIncluded, if_pos hlen]
    exact List.any_eq_true.mpr ⟨p, hp, hmatch⟩

theorem claim_C3_witness :
    (∃ p ∈ (newInternalFilter
        { IncludePaths := []
          ExcludePaths := []
          IncludeFilenames := [[97]]
          ExcludeFilenames := [[97]]
          IsCaseInsensitive := false }).includeFilenames,
      filepathMatch p
        (if (newInternalFilter
            { IncludePaths := []
              ExcludePaths := []
              IncludeFilenames := [[97]]
              ExcludeFilenames := [[97]]
              IsCaseInsensitive := false }).isCaseInsensitive = true then
          toLowerStr [97] else [97]) = true) ∧
    (newInternalFilter
        { IncludePaths := []
          ExcludePaths := []
          IncludeFilenames := [[97]]
          ExcludeFilenames := [[97]]
          IsCaseInsensitive := false }).IsFileIncluded [97] = true := by
  refine ⟨⟨[97], by decide, by decide⟩, ?_⟩
  exact (claim_C3 (newInternalFilter
    { IncludePaths := []
      ExcludePaths := []
      IncludeFilenames := [[97]]
      ExcludeFilenames := [[97]]
      IsCaseInsensitive := false }) [97] [97]).1 ⟨[97], by decide, by decide⟩

/-- C6 counterexample: the default concurrency of a freshly constructed
walk is not 400 (it is 200). -/
theorem claim_C6_counterexample : ¬((NewWalk sampleRoot).concurrency = 400) := by
  decide

/-- C6 (amended): a `Walk` constructed by `NewWalk` has concurrency 200 by
default, and the jobs channel created by `InitSync` for a run has capacity
equal to the configured concurrency. -/
theorem claim_C6 :
    (∀ rootPath : GoString, (NewWalk rootPath).concurrency = 200) ∧
    (∀ walk : Walk, (InitSync walk).jobsCapacity = walk.concurrency) := by
  exact ⟨fun _ => rfl, fun _ => rfl⟩

/-- C7 counterexample: with the case-insensitive flag set, matching is not
indifferent to the case used in the configured patterns: the filter whose
include pattern is `"a"` accepts the candidate `"a"`, while the filter whose
include pattern is `"A"` (configured identically otherwise) rejects it. -/
theorem claim_C7_counterexample :
    (newInternalFilter
        { IncludePaths := []
          ExcludePaths := []
          IncludeFilenames := [[97]]
          ExcludeFilenames := []
          IsCaseInsensitive := true }).IsFileIncluded [97] = true ∧
    (newInternalFilter
        { IncludePaths := []
          ExcludePaths := []
          IncludeFilenames := [[65]]
          ExcludeFilenames := []
          IsCaseInsensitive := true }).IsFileIncluded [97] = false := by
  decide

/-- C7 (amended): when the case-insensitive flag is set, only the candidate
is case-folded before comparison in `IsFileIncluded` and `IsPathIncluded`;
the patterns are used exactly as configured.  Equivalently, matching with
the flag set coincides with case-sensitive matching of the folded candidate
against the unchanged patterns. -/
theorem claim_C7 (f : internalFilter) (s : GoString) :
    { f with isCaseInsensitive := true }.IsFileIncluded s =
      { f with isCaseInsensitive := false }.IsFileIncluded (toLowerStr s) ∧
    { f with isCaseInsensitive := true }.IsPathIncluded s =
      { f with isCaseInsensitive := false }.IsPathIncluded (toLowerStr s) := by
  constructor
  · simp [internalFilter.IsFileIncluded]
  · simp [internalFilter.IsPathIncluded]

/-- C10: with the case-insensitive flag set, only the candidate is
lowercased while patterns are used as configured, so a pattern of literal
characters containing an ASCII uppercase letter can never fire: as the sole
include pattern it makes `IsFileIncluded` / `IsPathIncluded` reject every
candidate, and as the sole exclude pattern (with no includes) it excludes
nothing. -/
theorem claim_C10 (p : GoString) (hlit : isLiteralPattern p = true)
    (hup : containsUpper p = true) (f : internalFilter)
    (hci : f.isCaseInsensitive = true) :
    (f.includeFilenames = [p] → ∀ s, f.IsFileIncluded s = false) ∧
    (f.includeFilenames = [] → f.excludeFilenames = [p] → ∀ s, f.IsFileIncluded s = true) ∧
    (f.includePaths = [p] → ∀ s, f.IsPathIncluded s = false) ∧
    (f.includePaths = [] → f.excludePaths = [p] → ∀ s, f.IsPathIncluded s = true) := by
  refine ⟨?_, ?_, ?_, ?_⟩
  · intro hinc s
    simp [internalFilter.IsFileIncluded, hinc, hci, filepathMatch_lower_false hlit hup]
  · intro hinc hexc s
    simp [internalFilter.IsFileIncluded, hinc, hexc, hci,
      filepathMatch_lower_false hlit hup]
  · intro hinc s
    simp [internalFilter.IsPathIncluded, hinc, hci, globMatch_lower_false hlit hup]
  · intro hinc hexc s
    simp [internalFilter.IsPathIncluded, hinc, hexc, hci,
      globMatch_lower_false hlit hup]

theorem claim_C10_witness :
    (isLiteralPattern [65] = true ∧ containsUpper [65] = true) ∧
    ({ includePaths := ([] : List GoString)
       excludePaths := []
       includeFilenames := [[65]]
       excludeFilenames := []
       isCaseInsensitive := true : internalFilter }.IsFileIncluded [97] = false) ∧
    ({ includePaths := [[65]]
       excludePaths := []
       includeFilenames := []
       excludeFilenames := [[65]]
       isCaseInsensitive := true : internalFilter }.IsFileIncluded [65] = true ∧
     { includePaths := [[65]]
       excludePaths := []
       includeFilenames := []
       excludeFilenames := [[65]]
       isCaseInsensitive := true : internalFilter }.IsPathIncluded [97] = false) := by
  refine ⟨⟨by decide, by decide⟩, ?_, ?_, ?_⟩
  · exact (claim_C10 [65] (by decide) (by decide) _ rfl).1 rfl [97]
  · exact ((claim_C10 [65] (by decide) (by decide) _ rfl).2.1) rfl rfl [65]
  · exact ((claim_C10 [65] (by decide) (by decide) _ rfl).2.2.1) rfl [97]

/-- C1: each handler invocation ticks `jobsInFlight` down after the
type-specific handler ran; the invocation whose decrement brings the counter
to zero closes the jobs channel and sets both `hasStopped` and `hasFinished`
(the counter-lock discipline itself is a concurrency aspect outside this
sequential model); an invocation whose decrement leaves the counter positive
changes none of channel, `hasStopped`, `hasFinished`. -/
theorem claim_C1 :
    (∀ (env : Env) (walk : Walk) (job : Job) (walk1 : Walk),
        jobHandler env walk job = .ok walk1 → handleJob env walk job = jobTickDown walk1) ∧
    (∀ walk walk1 : Walk, jobTickDown walk = .ok walk1 →
        walk1.jobsInFlight = walk.jobsInFlight - 1) ∧
    (∀ walk : Walk, walk.jobsInFlight = 1 → walk.jobsClosed = false →
        jobTickDown walk =
          .ok { walk with
                jobsInFlight := 0
                jobsClosed := true
                hasStopped := true
                hasFinished := true }) ∧
    (∀ walk walk1 : Walk, jobTickDown walk = .ok walk1 → 1 < walk.jobsInFlight →
        walk1.jobsClosed = walk.jobsClosed ∧ walk1.hasStopped = walk.hasStopped ∧
          walk1.hasFinished = walk.hasFinished) := by
  refine ⟨?_, ?_, ?_, ?_⟩
  · intro env walk job walk1 h
    simp [handleJob, h]
  · intro walk walk1 h
    unfold jobTickDown at h
    by_cases h1 : walk.jobsInFlight - 1 < 0
    · simp [h1] at h
    · by_cases h2 : walk.jobsInFlight - 1 ≤ 0
      · by_cases h3 : walk.jobsClosed = true
        · simp [h1, h2, h3] at h
        · simp [h1, h2, h3] at h
          rw [← h]
      · simp [h1, h2] at h
        rw [← h]
  · intro walk h1 h2
    unfold jobTickDown
    rw [h1]
    norm_num [h2]
  · intro walk walk1 h hgt
    unfold jobTickDown at h
    have h1 : ¬(walk.jobsInFlight - 1 < 0) := by omega
    have h2 : ¬(walk.jobsInFlight - 1 ≤ 0) := by omega
    simp [h1, h2] at h
    rw [← h]
    exact ⟨rfl, rfl, rfl⟩

theorem claim_C1_witness :
    (handleJob envFileOk walkFresh (Job.fileNode parentFixture infoFile) =
      jobTickDown walkFileVisited) ∧
    jobTickDown { walkFresh with jobsInFlight := 1 } =
      .ok { { walkFresh with jobsInFlight := 1 } with
            jobsInFlight := 0
            jobsClosed := true
            hasStopped := true
            hasFinished := true } := by
  exact ⟨claim_C1.1 envFileOk walkFresh (Job.fileNode parentFixture infoFile) walkFileVisited rfl,
    claim_C1.2.2.1 { walkFresh with jobsInFlight := 1 } rfl rfl⟩

theorem foldl_counterStep (trace : List CounterEvent) :
    ∀ n : Int, trace.foldl counterStep n = n + pushCount trace - completeCount trace := by
  induction trace with
  | nil => intro n; simp [pushCount, completeCount]
  | cons e rest ih =>
    intro n
    cases e <;> simp [counterStep, pushCount, completeCount, ih] <;> omega

/-- C2: `jobsInFlight` is incremented before every send on the jobs channel
(`pushJob` applies `jobTickUp` ahead of the append modelling the send) and
decremented only by `jobTickDown` after a handler completion; a decrement
that would make the counter negative is the fatal unbalanced-counter panic;
and along any event trace obeying the channel pairing discipline
(completions never outnumber pushes on any prefix) the counter value is
never negative. -/
theorem claim_C2 :
    (∀ (walk : Walk) (job : Job) (walk1 : Walk), pushJob walk job = .ok walk1 →
        walk1.jobsInFlight = walk.jobsInFlight + 1 ∧
          walk1.jobsBuffer = walk.jobsBuffer ++ [job]) ∧
    (∀ walk : Walk, (jobTickUp walk).jobsInFlight = walk.jobsInFlight + 1) ∧
    (∀ walk : Walk, walk.jobsInFlight - 1 < 0 →
        jobTickDown walk = .error .unbalancedJobCounter) ∧
    (∀ trace : List CounterEvent, wellPaired trace = true →
        ∀ p ∈ trace.inits, 0 ≤ inFlightAfter p) := by
  refine ⟨?_, ?_, ?_, ?_⟩
  · intro walk job walk1 h
    unfold pushJob jobTickUp at h
    by_cases hcs : walk.idleWorkerCount ≤ 0 ∧ walk.workerCount < walk.concurrency
    · by_cases hcl : walk.jobsClosed = true
      · simp [hcs, hcl] at h
      · simp [hcs, hcl] at h
        rw [← h]
        exact ⟨rfl, rfl⟩
    · by_cases hcl : walk.jobsClosed = true
      · simp [hcs, hcl] at h
      · simp [hcs, hcl] at h
        rw [← h]
        exact ⟨rfl, rfl⟩
  · intro walk
    rfl
  · intro walk h
    unfold jobTickDown
    simp [h]
  · intro trace hwp p hp
    simp only [wellPaired, List.all_eq_true, decide_eq_true_eq] at hwp
    have hcount := hwp p hp
    unfold inFlightAfter
    rw [foldl_counterStep]
    omega

theorem claim_C2_witness :
    (walkPushed.jobsInFlight = walkFresh.jobsInFlight + 1 ∧
      walkPushed.jobsBuffer = walkFresh.jobsBuffer ++ [Job.directoryNode parentFixture infoDir]) ∧
    jobTickDown walkFresh = .error .unbalancedJobCounter ∧
    0 ≤ inFlightAfter [CounterEvent.push] := by
  refine ⟨claim_C2.1 walkFresh (Job.directoryNode parentFixture infoDir) walkPushed rfl,
    claim_C2.2.2.1 walkFresh (by decide), ?_⟩
  exact claim_C2.2.2.2 [CounterEvent.push, CounterEvent.complete] (by decide)
    [CounterEvent.push] (by decide)

/-- C5 evidence: in `handleJobDirectoryContentsBatch`, a child whose stat
fails does not only skip that child — the handler returns immediately, so
the remaining children of the batch are never stat'd or dispatched.  With
the failing child first, a directory child behind it produces no job at all,
although the same directory child alone is dispatched. -/
theorem claim_C5 :
    handleJobDirectoryContentsBatch envBatch walkFresh parentFixture
        [childBad, childDir] true = .ok walkFresh ∧
    (∃ walk1,
      handleJobDirectoryContentsBatch envBatch walkFresh parentFixture [childDir] true =
          .ok walk1 ∧
        walk1.jobsBuffer = [Job.directoryNode parentFixture { name := childDir, isDir := true }]) := by
  exact ⟨rfl, ⟨walkPushedChildDir, rfl, rfl⟩⟩

theorem pushJob_spec (walk : Walk) (job : Job) (h : walk.jobsClosed = false) :
    ∃ walk1, pushJob walk job = .ok walk1 ∧
      walk1.jobsBuffer = walk.jobsBuffer ++ [job] ∧
      walk1.filter = walk.filter ∧
      walk1.doLogFilterStats = walk.doLogFilterStats ∧
      walk1.jobsClosed = false ∧
      walk1.stats.FileFilterIncludes = walk.stats.FileFilterIncludes ∧
      walk1.stats.FileFilterExcludes = walk.stats.FileFilterExcludes := by
  unfold pushJob jobTickUp
  by_cases hcs : walk.idleWorkerCount ≤ 0 ∧ walk.workerCount < walk.concurrency <;>
    simp [hcs, h]

theorem fileIncludeTick_spec (walk : Walk) (h : walk.doLogFilterStats = true) :
    statsFileFilterIncludeTickUp walk =
      { walk with stats :=
          { walk.stats with FileFilterIncludes := walk.stats.FileFilterIncludes + 1 } } := by
  unfold statsFileFilterIncludeTickUp
  simp [h]

theorem fileExcludeTick_spec (walk : Walk) (h : walk.doLogFilterStats = true) :
    statsFileFilterExcludeTickUp walk =
      { walk with stats :=
          { walk.stats with FileFilterExcludes := walk.stats.FileFilterExcludes + 1 } } := by
  unfold statsFileFilterExcludeTickUp
  simp [h]

theorem processBatchChildren_spec (env : Env) (parentNodePath : GoString)
    (doProcessFiles : Bool) :
    ∀ (children : List GoString) (walk : Walk),
      (∀ c ∈ children, (env.stat (pathJoin parentNodePath c)).isSome = true) →
      walk.jobsClosed = false → walk.doLogFilterStats = true →
      ∃ walk1,
        processBatchChildren env parentNodePath doProcessFiles walk children = .ok walk1 ∧
        walk1.jobsBuffer = walk.jobsBuffer ++
          expectedBatchJobs env walk.filter parentNodePath doProcessFiles children ∧
        walk1.stats.FileFilterIncludes = walk.stats.FileFilterIncludes +
          (if doProcessFiles = true then
            (acceptedFileCount env walk.filter parentNodePath children : Int) else 0) ∧
        walk1.stats.FileFilterExcludes = walk.stats.FileFilterExcludes +
          (if doProcessFiles = true then
            (rejectedFileCount env walk.filter parentNodePath children : Int) else 0) ∧
        walk1.filter = walk.filter := by
  intro children
  induction children with
  | nil =>
    intro walk hstat hcl hlog
    refine ⟨walk, rfl, ?_, ?_, ?_, rfl⟩ <;>
      simp [expectedBatchJobs, acceptedFileCount, rejectedFileCount]
  | cons c rest ih =>
    intro walk hstat hcl hlog
    obtain ⟨info, hstatc⟩ : ∃ info, env.stat (pathJoin parentNodePath c) = some info := by
      have hs := hstat c (by simp)
      cases heq : env.stat (pathJoin parentNodePath c) with
      | none => rw [heq] at hs; simp at hs
      | some i => exact ⟨i, rfl⟩
    have hstatr : ∀ x ∈ rest, (env.stat (pathJoin parentNodePath x)).isSome = true :=
      fun x hx => hstat x (by simp [hx])
    by_cases hdir : info.isDir = true
    · obtain ⟨walkP, hpush, hbufP, hfiltP, hlogP, hclP, hincP, hexcP⟩ :=
        pushJob_spec walk (.directoryNode parentNodePath info) hcl
      obtain ⟨walk1, hrec, hbuf1, hinc1, hexc1, hfilt1⟩ :=
        ih walkP hstatr hclP (by rw [hlogP]; exact hlog)
      have haccept : acceptedFileCount env walk.filter parentNodePath (c :: rest) =
          acceptedFileCount env walk.filter parentNodePath rest := by
        simp [acceptedFileCount, List.countP_cons, hstatc, hdir]
      have hreject : rejectedFileCount env walk.filter parentNodePath (c :: rest) =
          rejectedFileCount env walk.filter parentNodePath rest := by
        simp [rejectedFileCount, List.countP_cons, hstatc, hdir]
      simp only [hfiltP, hincP, hexcP] at hinc1 hexc1
      refine ⟨walk1, ?_, ?_, ?_, ?_, ?_⟩
      · simp only [processBatchChildren, hstatc, hdir, if_pos, hpush]
        exact hrec
      · rw [hbuf1, hbufP, hfiltP]
        simp [expectedBatchJobs, hstatc, hdir]
      · rw [hinc1, haccept]
      · rw [hexc1, hreject]
      · rw [hfilt1, hfiltP]
    · by_cases hdpf : doProcessFiles = true
      · by_cases hincl : walk.filter.IsFileIncluded c = true
        · have htick := fileIncludeTick_spec walk hlog
          obtain ⟨walkP, hpush, hbufP, hfiltP, hlogP, hclP, hincP, hexcP⟩ :=
            pushJob_spec (statsFileFilterIncludeTickUp walk) (.fileNode parentNodePath info)
              (by rw [htick]; exact hcl)
          obtain ⟨walk1, hrec, hbuf1, hinc1, hexc1, hfilt1⟩ :=
            ih walkP hstatr hclP (by rw [hlogP, htick]; exact hlog)
          have hfiltT : (statsFileFilterIncludeTickUp walk).filter = walk.filter := by
            rw [htick]
          simp only [hfiltP, hfiltT, hincP, hexcP, htick] at hinc1 hexc1
          rw [hdpf] at hrec
          refine ⟨walk1, ?_, ?_, ?_, ?_, ?_⟩
          · simp [processBatchChildren, hstatc, hdir, hdpf, hincl, hpush]
            exact hrec
          · rw [hbuf1, hbufP, hfiltP, hfiltT, htick]
            simp [expectedBatchJobs, hstatc, hdir, hdpf, hincl]
          · rw [hinc1]
            simp [acceptedFileCount, List.countP_cons, hstatc, hdir, hincl, hdpf]
            ring
          · rw [hexc1]
            simp [rejectedFileCount, List.countP_cons, hstatc, hdir, hincl, hdpf]
          · rw [hfilt1, hfiltP, hfiltT]
        · have htick := fileExcludeTick_spec walk hlog
          obtain ⟨walk1, hrec, hbuf1, hinc1, hexc1, hfilt1⟩ :=
            ih (statsFileFilterExcludeTickUp walk) hstatr
              (by rw [htick]; exact hcl) (by rw [htick]; exact hlog)
          simp only [htick] at hinc1 hexc1 hbuf1 hfilt1
          rw [hdpf] at hrec
          refine ⟨walk1, ?_, ?_, ?_, ?_, ?_⟩
          · simp [processBatchChildren, hstatc, hdir, hdpf, hincl]
            exact hrec
          · rw [hbuf1]
            simp [expectedBatchJobs, hstatc, hdir, hincl, hdpf]
          · rw [hinc1]
            simp [acceptedFileCount, List.countP_cons, hstatc, hdir, hincl, hdpf]
          · rw [hexc1]
            simp [rejectedFileCount, List.countP_cons, hstatc, hdir, hincl, hdpf]
            ring
          · exact hfilt1
      · have hdpf2 : doProcessFiles = false := by
          cases doProcessFiles
          · rfl
          · exact absurd rfl hdpf
        obtain ⟨walk1, hrec, hbuf1, hinc1, hexc1, hfilt1⟩ := ih walk hstatr hcl hlog
        rw [hdpf2] at hrec
        simp only [hdpf2] at hinc1 hexc1
        refine ⟨walk1, ?_, ?_, ?_, ?_, ?_⟩
        · simp [processBatchChildren, hstatc, hdir, hdpf2]
          exact hrec
        · rw [hbuf1]
          simp [expectedBatchJobs, hstatc, hdir, hdpf2]
        · simpa [hdpf2] using hinc1
        · simpa [hdpf2] using hexc1
        · exact hfilt1

/-- C4: for a directory-contents batch whose children all stat successfully
(the stat-failure path is claim C5), every child that stats as a directory
is enqueued as a directory-node job regardless of the batch's
`processFiles` flag, while a child that stats as a file is enqueued as a
file-node job exactly when `processFiles` is set and `IsFileIncluded`
admits its name; with filter statistics enabled, the file-filter include
counter advances by the number of admitted files and the exclude counter by
the number of rejected files, and with `processFiles` unset both counters
are untouched. -/
theorem claim_C4 (env : Env) (walk : Walk) (parentPath : GoString) (batchNumber : Int)
    (childBatch : List GoString) (doProcessFiles : Bool)
    (hstat : ∀ c ∈ childBatch, (env.stat (pathJoin parentPath c)).isSome = true)
    (hcl : walk.jobsClosed = false) (hlog : walk.doLogFilterStats = true) :
    ∃ walk1,
      jobHandler env walk
          (.directoryContentsBatch parentPath batchNumber childBatch doProcessFiles) =
        .ok walk1 ∧
      walk1.jobsBuffer = walk.jobsBuffer ++
        expectedBatchJobs env walk.filter parentPath doProcessFiles childBatch ∧
      (doProcessFiles = true →
        walk1.stats.FileFilterIncludes = walk.stats.FileFilterIncludes +
          acceptedFileCount env walk.filter parentPath childBatch ∧
        walk1.stats.FileFilterExcludes = walk.stats.FileFilterExcludes +
          rejectedFileCount env walk.filter parentPath childBatch) ∧
      (doProcessFiles = false →
        walk1.stats.FileFilterIncludes = walk.stats.FileFilterIncludes ∧
        walk1.stats.FileFilterExcludes = walk.stats.FileFilterExcludes) := by
  obtain ⟨walk1, hrun, hbuf, hinc, hexc, hfilt⟩ :=
    processBatchChildren_spec env parentPath doProcessFiles childBatch walk hstat hcl hlog
  refine ⟨walk1, hrun, hbuf, ?_, ?_⟩
  · intro h
    simp only [h, if_pos] at hinc hexc
    exact ⟨hinc, hexc⟩
  · intro h
    simp only [h] at hinc hexc
    simp at hinc hexc
    exact ⟨hinc, hexc⟩

theorem claim_C4_witness :
    jobHandler envBatch walkFiltered batchJobFix = .ok walkBatchResult ∧
    walkBatchResult.jobsBuffer =
      walkFiltered.jobsBuffer ++
        expectedBatchJobs envBatch walkFiltered.filter parentFixture true childrenFix ∧
    walkBatchResult.stats.FileFilterIncludes =
      walkFiltered.stats.FileFilterIncludes +
        acceptedFileCount envBatch walkFiltered.filter parentFixture childrenFix ∧
    walkBatchResult.stats.FileFilterExcludes =
      walkFiltered.stats.FileFilterExcludes +
        rejectedFileCount envBatch walkFiltered.filter parentFixture childrenFix := by
  obtain ⟨walk1, hrun, hbuf, hpf, _⟩ :=
    claim_C4 envBatch walkFiltered parentFixture 0 childrenFix true (by decide) rfl rfl
  obtain ⟨hinc, hexc⟩ := hpf rfl
  have hw : walkBatchResult = walk1 := by
    unfold walkBatchResult batchJobFix
    rw [hrun]
    rfl
  rw [hw]
  exact ⟨hrun, hbuf, hinc, hexc⟩

theorem pathIncludeTick_proj (walk : Walk) :
    (statsPathFilterIncludeTickUp walk).stats.DirectoriesIgnored =
        walk.stats.DirectoriesIgnored ∧
      (statsPathFilterIncludeTickUp walk).jobsBuffer = walk.jobsBuffer ∧
      (statsPathFilterIncludeTickUp walk).jobsInFlight = walk.jobsInFlight := by
  unfold statsPathFilterIncludeTickUp
  split <;> simp

/-- C8: when the visitor invoked on a directory node returns the exported
skip-directory sentinel, the handler counts the directory as ignored and
returns successfully without opening the directory (the conclusion holds for
every environment, including ones whose directory-open oracle fails) and
without enqueuing any child batch (jobs buffer and in-flight counter are
unchanged); any other non-nil visitor error is propagated as the worker
panic.  The hypothesis restricts to directories admitted by the path filter
(or at the root), since only then is the visitor invoked at all. -/
theorem claim_C8 (env : Env) (walk : Walk) (parentNodePath : GoString) (info : FileInfo)
    (hinc : walk.rootPath.length + 1 < (pathJoin parentNodePath info.name).length →
      walk.filter.IsPathIncluded
        ((pathJoin parentNodePath info.name).drop (walk.rootPath.length + 1)) = true) :
    (env.walkFunc parentNodePath info = .skipDirectory →
      ∃ walk1, handleJobDirectoryNode env walk parentNodePath info = .ok walk1 ∧
        walk1.stats.DirectoriesIgnored = walk.stats.DirectoriesIgnored + 1 ∧
        walk1.jobsBuffer = walk.jobsBuffer ∧ walk1.jobsInFlight = walk.jobsInFlight) ∧
    (∀ e : GoString, env.walkFunc parentNodePath info = .otherError e →
      handleJobDirectoryNode env walk parentNodePath info = .error (.visitorError e)) := by
  constructor
  · intro hskip
    by_cases hc : walk.rootPath.length + 1 < (pathJoin parentNodePath info.name).length
    · have hpi := hinc hc
      simp only [handleJobDirectoryNode, hc, hpi, hskip]
      obtain ⟨hI, hB, hF⟩ := pathIncludeTick_proj
        { walk with stats :=
            { walk.stats with DirectoriesVisited := walk.stats.DirectoriesVisited + 1 } }
      exact ⟨_, rfl, by simpa using hI, by simpa using hB, by simpa using hF⟩
    · simp only [handleJobDirectoryNode, hc, hskip]
      exact ⟨_, rfl, rfl, rfl, rfl⟩
  · intro e herr
    by_cases hc : walk.rootPath.length + 1 < (pathJoin parentNodePath info.name).length
    · have hpi := hinc hc
      simp [handleJobDirectoryNode, hc, hpi, herr]
    · simp [handleJobDirectoryNode, hc, herr]

theorem claim_C8_witness :
    (∃ walk1, handleJobDirectoryNode envSkip walkFresh parentFixture infoDir = .ok walk1 ∧
      walk1.stats.DirectoriesIgnored = walkFresh.stats.DirectoriesIgnored + 1 ∧
      walk1.jobsBuffer = walkFresh.jobsBuffer ∧
      walk1.jobsInFlight = walkFresh.jobsInFlight) ∧
    handleJobDirectoryNode envVisitorFails walkFresh parentFixture infoDir =
      .error (.visitorError [120]) := by
  exact ⟨(claim_C8 envSkip walkFresh parentFixture infoDir (fun _ => by decide)).1 rfl,
    (claim_C8 envVisitorFails walkFresh parentFixture infoDir (fun _ => by decide)).2 [120] rfl⟩

/-- C9 evidence: `Stop` only closes the jobs channel; in the code as written
it sets neither `hasStopped` nor `hasFinished`, so after an external stop
`hasStopped` is still false — contradicting the specified
`hasStopped ∧ ¬hasFinished` signature of an external stop (the `Run`
monitor loop polls `hasStopped` and therefore cannot observe the stop). -/
theorem claim_C9 :
    Stop walkRunning = .ok { walkRunning with jobsClosed := true } ∧
    ({ walkRunning with jobsClosed := true } : Walk).hasStopped = false ∧
    ({ walkRunning with jobsClosed := true } : Walk).hasFinished = false := by
  exact ⟨rfl, rfl, rfl⟩

end Pathwalk
